import Mathlib

/-!
Shallow embedding of the traceability-report generator
(`tools/generate_traceability.py`, `tools/parse_trx.py`) and proofs about it.

XML documents (as seen through Python's `xml.etree.ElementTree`) are modelled
as rose trees.  An ElementTree tag `\x7bns\x7dLocal` is modelled as the pair
`(some ns, Local)`; a tag with no namespace as `(none, Local)`.  `findall`
patterns of the form `.//\x7b*\x7dX` (wildcard namespace) match on the local
name alone; patterns `.//t:X` with a namespace map match only elements whose
namespace equals the mapped URI.  Attribute dictionaries are association
lists; `attrib.get` is `List.lookup`.
-/

namespace Traceability

/-- Python dictionary read access `d.get(k)` / `d[k]` on a dict modelled as
an insertion-ordered association list with unique keys: the value at the
first (only) entry whose key is `k`. -/
def dictGet {α β : Type} [DecidableEq α] (j : α) : List (α × β) → Option β
  | [] => none
  | (k, v) :: d => if j = k then some v else dictGet j d

/-- One XML element: namespace (Clark-notation prefix, if any), local tag
name, attributes, text, children. -/
inductive XmlNode : Type where
  | mk (ns : Option String) (tag : String) (attrs : List (String × String))
      (text : Option String) (children : List XmlNode) : XmlNode

namespace XmlNode

def ns : XmlNode → Option String
  | .mk n _ _ _ _ => n

def tag : XmlNode → String
  | .mk _ t _ _ _ => t

def attrs : XmlNode → List (String × String)
  | .mk _ _ a _ _ => a

def text : XmlNode → Option String
  | .mk _ _ _ t _ => t

def children : XmlNode → List XmlNode
  | .mk _ _ _ _ cs => cs

/-- Attribute lookup, Python `element.attrib.get(k)`. -/
def attr (n : XmlNode) (k : String) : Option String :=
  dictGet k n.attrs

/-- Attribute lookup with default, Python `element.attrib.get(k, d)`. -/
def attrD (n : XmlNode) (k : String) (d : String) : String :=
  (n.attr k).getD d

mutual

/-- All proper descendants of a node, in document (preorder) order:
the elements `findall(".//pattern")` ranges over. -/
def descendants : XmlNode → List XmlNode
  | .mk _ _ _ _ cs => descList cs

/-- Preorder listing of a forest: each root followed by its descendants. -/
def descList : List XmlNode → List XmlNode
  | [] => []
  | c :: rest => c :: (descendants c ++ descList rest)

end

/-- Python `element.iter()`: the element itself plus all its descendants. -/
def iterAll (n : XmlNode) : List XmlNode :=
  n :: n.descendants

end XmlNode

/-! ## Small helpers shared by the tools -/

/-- Python's falsy `or` restricted to strings: `a or b` where the empty
string is falsy.  (`None` from `attrib.get` is conflated with `""`: both are
falsy and every use immediately tests falsiness or strips.) -/
def pyOr (a b : String) : String :=
  if a == "" then b else a

/-- Characters matched by Python's `\s` (also the characters stripped by
`str.strip()`). -/
def pySpace (c : Char) : Bool :=
  c == ' ' || c == '\t' || c == '\n' || c == '\r' || c == '\x0b' || c == '\x0c'

/-- Python `s.strip()`: whitespace removed from both ends. -/
def pyStrip (s : String) : String :=
  ⟨((s.data.dropWhile pySpace).reverse.dropWhile pySpace).reverse⟩

/-- Python `s.endswith(suff)`. -/
def strEndsWith (s suff : String) : Bool :=
  decide (suff.length ≤ s.length) && s.data.drop (s.length - suff.length) == suff.data

/-- Lexicographic comparison of code-point sequences, Python's string
order. -/
def listLexLe : List Char → List Char → Bool
  | [], _ => true
  | _ :: _, [] => false
  | a :: as, b :: bs =>
    if a.toNat < b.toNat then true
    else if b.toNat < a.toNat then false
    else listLexLe as bs

/-- Python `a <= b` on strings. -/
def pyStrLe (a b : String) : Bool :=
  listLexLe a.data b.data

/-- Python `re.split(r"[\[\(]", name, 1)[0]` from `parse_junit_file`:
everything from the first `[` or `(` onward is dropped. -/
def normName (s : String) : String :=
  ⟨s.data.takeWhile fun c => !(c == '[' || c == '(')⟩

/-! ## Result parsers (`generate_traceability.py` lines 91-157)

`parse_trx_file` / `parse_junit_file` take an `Option XmlNode`: `none`
models `ET.parse` raising on a malformed or unreadable file (the `except`
branch), `some root` a successful parse. -/

/-- A `{"name": ..., "outcome": ...}` row. -/
structure ResultRow where
  name : String
  outcome : String
deriving Repr, DecidableEq

/-- The check `res.find(".//\x7b*\x7dOutput/\x7b*\x7dErrorInfo/\x7b*\x7dMessage") is not None`:
some descendant `Output` element has a child `ErrorInfo` with a child
`Message`, all matched namespace-agnostically. -/
def hasFailureEvidence (res : XmlNode) : Bool :=
  res.descendants.any fun d =>
    d.tag == "Output" && d.children.any fun e =>
      e.tag == "ErrorInfo" && e.children.any fun m => m.tag == "Message"

/-- Outcome classification of one `UnitTestResult` element in
`parse_trx_file`: attribute `outcome`, else `result`, else guessed from
nested error evidence (`Failed`) or `Unknown`. -/
def trxOutcomeOf (res : XmlNode) : String :=
  let outcome0 := pyOr (res.attrD "outcome" "") (res.attrD "result" "")
  if outcome0 == "" then
    if hasFailureEvidence res then "Failed" else "Unknown"
  else outcome0

/-- Name of one `UnitTestResult` element in `parse_trx_file`:
`testName` or `testname`, falling back to `executionId`/`testId`/`"Unknown"`
when empty. -/
def trxNameOf (res : XmlNode) : String :=
  let name0 := pyOr (res.attrD "testName" "") (pyOr (res.attrD "testname" "") "")
  if name0 == "" then
    pyOr (res.attrD "executionId" "") (pyOr (res.attrD "testId" "") "Unknown")
  else name0

/-- `parse_trx_file` (`generate_traceability.py` 91-119): every descendant
whose local tag is `UnitTestResult` (any namespace, `\x7b*\x7d` wildcard) yields a
row; a parse failure yields `[]`. -/
def parse_trx_file : Option XmlNode → List ResultRow
  | none => []
  | some root =>
    (root.descendants.filter fun res => res.tag == "UnitTestResult").map fun res =>
      ⟨pyStrip (trxNameOf res), pyStrip (trxOutcomeOf res)⟩

/-- `tc.find(t) is not None` for a plain tag pattern: a direct child with
local tag `t` and no namespace (plain patterns in ElementTree match only
namespace-less elements). -/
def hasDirectChild (tc : XmlNode) (t : String) : Bool :=
  tc.children.any fun c => c.tag == t && c.ns == none

/-- Outcome classification of one `testcase` element in `parse_junit_file`:
a direct `skipped` child wins, else a direct `failure` or `error` child
gives `Failed`, else `Passed`. -/
def junitOutcomeOf (tc : XmlNode) : String :=
  if hasDirectChild tc "skipped" then "Skipped"
  else if hasDirectChild tc "failure" || hasDirectChild tc "error" then "Failed"
  else "Passed"

/-- `parse_junit_file` (`generate_traceability.py` 135-157): every
descendant `testcase` (no namespace) yields a row whose name is the `name`
attribute with parameterization suffixes stripped; a parse failure yields
`[]`. -/
def parse_junit_file : Option XmlNode → List ResultRow
  | none => []
  | some root =>
    (root.descendants.filter fun tc => tc.tag == "testcase" && tc.ns == none).map fun tc =>
      ⟨pyStrip (normName (tc.attrD "name" "")), junitOutcomeOf tc⟩

/-! ## `tools/parse_trx.py` -/

/-- The fixed namespace URI bound to prefix `t` in `parse_trx.py`. -/
def teamTestNS : String := "http://microsoft.com/schemas/VisualStudio/TeamTest/2010"

/-- A row of `parse_trx.py`: `attrib.get` results are kept as options,
as the Python keeps `None`. -/
structure TrxRow where
  name : Option String
  outcome : Option String
  categories : List String
deriving Repr, DecidableEq

/-- Category value of one category element in `parse_trx.py`:
`TestCategory` attribute, else `name` attribute, else stripped text. -/
def catValue (node : XmlNode) : String :=
  pyOr (node.attrD "TestCategory" "") (pyOr (node.attrD "name" "") (pyStrip (node.text.getD "")))

/-- Categories collected under one `UnitTest` element: `ut.iter()` visits
the element and all descendants; elements whose local tag (namespace
stripped via `tag.split("\x7d")[-1]`) is `TestCategoryItem` or `TestCategory`
contribute their non-empty value. -/
def catsOf (ut : XmlNode) : List String :=
  (ut.iterAll.filter fun node => node.tag == "TestCategoryItem" || node.tag == "TestCategory").foldl
    (fun acc node => let v := catValue node; if v == "" then acc else acc ++ [v]) []

/-- Python dict assignment `d[k] = v` on an insertion-ordered dict with
`Option String` keys: overwrite in place, else append. -/
def dictInsertO (k : Option String) (v : List String) (d : List (Option String × List String)) :
    List (Option String × List String) :=
  match dictGet k d with
  | some _ => d.map fun p => if p.1 = k then (k, v) else p
  | none => d ++ [(k, v)]

/-- `parse_trx` (`parse_trx.py` 5-38).  `UnitTest` and `UnitTestResult`
elements are found with `findall(".//t:...", NS)`: only elements in the
fixed `teamTestNS` namespace match.  Category elements inside a `UnitTest`
are matched by local name only. -/
def parse_trx (root : XmlNode) : List TrxRow :=
  let id_to_cats :=
    (root.descendants.filter fun ut => ut.ns == some teamTestNS && ut.tag == "UnitTest").foldl
      (fun d ut => dictInsertO (ut.attr "id") ((catsOf ut).filter fun c => !(c == "")) d) []
  (root.descendants.filter fun r => r.ns == some teamTestNS && r.tag == "UnitTestResult").map
    fun r => ⟨r.attr "testName", r.attr "outcome", (dictGet (r.attr "testId") id_to_cats).getD []⟩

/-! ## C# source scanner (`map_cs_test_reqs`, lines 173-242)

The Python works on raw text through three regexes.  The embedding starts
from the regex matches: a method match contributes its name, whether its
attribute block contains a test-designating attribute
(`test_attr_hint.search`), and the (already uppercased) requirement ids
captured by `cat_rgx` in that block; a class match contributes the
requirement ids of its attribute block and the method matches inside its
body.  `methods` lists every method match over the whole file text, so a
method inside a class appears both there and in that class's `body`. -/

/-- One `method_rgx` match. -/
structure CsMethod where
  name : String
  hasTestAttr : Bool
  reqs : List String
deriving Repr, DecidableEq

/-- One `class_rgx` match. -/
structure CsClass where
  classReqs : List String
  body : List CsMethod
deriving Repr, DecidableEq

/-- One scanned C# file. -/
structure CsFile where
  classes : List CsClass
  methods : List CsMethod
deriving Repr, DecidableEq

/-- `mapping.setdefault(name, []).extend(rs)` on a dict modelled as a total
function defaulting to `[]`: a key is "present" iff its list is non-empty,
which coincides with the Python dict since every recorded extension is
non-empty. -/
def addAll (name : String) (rs : List String) (m : String → List String) :
    String → List String :=
  fun k => if k = name then m k ++ rs else m k

/-- One iteration of the class-level loop: a class whose attribute block
carries requirement ids lets every test-attributed method match in its
body collect them. -/
def classStep (acc : String → List String) (c : CsClass) : String → List String :=
  if c.classReqs = [] then acc
  else c.body.foldl (fun a m => if m.hasTestAttr then addAll m.name c.classReqs a else a) acc

/-- The `class_level` dict of one file. -/
def classLevelOf (f : CsFile) : String → List String :=
  f.classes.foldl classStep (fun _ => [])

/-- One iteration of the method-level loop: a test-attributed method match
with non-empty own requirement ids extends the mapping at its name. -/
def methodStep (a : String → List String) (m : CsMethod) : String → List String :=
  if m.hasTestAttr then (if m.reqs = [] then a else addAll m.name m.reqs a) else a

/-- The method-level pass of one file over the accumulated mapping. -/
def methodPassOn (f : CsFile) (m0 : String → List String) : String → List String :=
  f.methods.foldl methodStep m0

/-- Processing one file: the method-level pass, then the merge loop
`mapping.setdefault(k, []).extend(v)` over `class_level`, which pointwise
appends the class-level contributions. -/
def csFileStep (m0 : String → List String) (f : CsFile) : String → List String :=
  fun k => methodPassOn f m0 k ++ classLevelOf f k

/-- The mapping accumulated over all files, before de-duplication. -/
def csRawMap (files : List CsFile) : String → List String :=
  files.foldl csFileStep (fun _ => [])

/-- Python `sorted(set(v))`. -/
def dedupSort (l : List String) : List String :=
  List.insertionSort (fun a b => pyStrLe a b = true) l.dedup

/-- `map_cs_test_reqs`: accumulate method- and class-level contributions
over all files, then `sorted(set(...))` each value. -/
def map_cs_test_reqs (files : List CsFile) : String → List String :=
  fun k => dedupSort (csRawMap files k)

/-! ## Name resolver / joiner (`outcome_for_csharp_method`, lines 327-348,
and the indexing on lines 360-366) -/

/-- Python dict assignment `d[k] = v` on an insertion-ordered dict:
overwrite in place keeping the key's position, else append. -/
def dictInsert (k v : String) (d : List (String × String)) : List (String × String) :=
  match dictGet k d with
  | some _ => d.map fun p => if p.1 = k then (k, v) else p
  | none => d ++ [(k, v)]

/-- The dict comprehension `\x7br["name"]: r["outcome"] for r in rows\x7d`:
later rows overwrite earlier ones with the same name. -/
def dictOfRows (rows : List ResultRow) : List (String × String) :=
  rows.foldl (fun d r => dictInsert r.name r.outcome d) []

/-- The tail test of the regex `(^|[.:])name\s*\(`: `s` starts with the
literal `name`, then optional whitespace, then `(`. -/
def startsThenParen (name s : List Char) : Bool :=
  if s.take name.length = name then
    match (s.drop name.length).dropWhile pySpace with
    | '(' :: _ => true
    | _ => false
  else false

/-- The boundary test `(^|[.:])`: start of string, or a preceding `.`
or `:`. -/
def boundaryOk : Option Char → Bool
  | none => true
  | some c => c == '.' || c == ':'

/-- Scanning for a regex match of `(^|[.:])name\s*\(` with `prev` the
character before the current position. -/
def parenSearchAux (name : List Char) (prev : Option Char) : List Char → Bool
  | [] => boundaryOk prev && startsThenParen name []
  | c :: rest =>
    (boundaryOk prev && startsThenParen name (c :: rest)) || parenSearchAux name (some c) rest

/-- Python `re.search(rf"(^|[.:])\x7bre.escape(method_name)\x7d\s*\(", k)
is not None`. -/
def pyRegexParenSearch (name k : String) : Bool :=
  parenSearchAux name.toList none k.toList

/-- The fallback loop of `outcome_for_csharp_method`: scan the outcome dict
in insertion order; the first key matching by suffix (`.name`, `::name`,
equality) or by the parenthesis-tolerant regex decides. -/
def csLookupLoop (name : String) : List (String × String) → String
  | [] => "Unknown"
  | (k, v) :: rest =>
    if strEndsWith k ("." ++ name) || strEndsWith k ("::" ++ name) || k == name then v
    else if strEndsWith k ("." ++ name) || pyRegexParenSearch name k then v
    else csLookupLoop name rest

/-- `outcome_for_csharp_method` (lines 327-348): exact dict hit first, then
the suffix/regex scan, else `Unknown`. -/
def outcome_for_csharp_method (method_name : String) (csharp_out : List (String × String)) :
    String :=
  match dictGet method_name csharp_out with
  | some v => v
  | none => csLookupLoop method_name csharp_out

/-- The Python-side lookup `py_out.get(test_name, "Unknown")` (line 389):
exact name match only. -/
def pyOutcomeLookup (test_name : String) (py_out : List (String × String)) : String :=
  (dictGet test_name py_out).getD "Unknown"

/-! ## Aggregator (`outcome_rank`, lines 74-85, and `build_coverage`,
lines 354-406) -/

/-- `outcome_rank`: the severity dictionary with default 2
(`order.get(outcome, 2)`). -/
def outcome_rank (o : String) : Nat :=
  if o == "Passed" then 0
  else if o == "Success" then 0
  else if o == "OK" then 0
  else if o == "Skipped" then 1
  else if o == "Unknown" then 2
  else if o == "Failed" then 3
  else if o == "Error" then 3
  else 2

/-- The `inv` dictionary on line 403 with default `Unknown`
(`inv.get(best, "Unknown")`). -/
def invRank (n : Nat) : String :=
  if n == 0 then "Passed"
  else if n == 1 then "Skipped"
  else if n == 2 then "Unknown"
  else if n == 3 then "Failed"
  else "Unknown"

/-- The per-requirement aggregation on lines 396-404 applied to the
outcomes of one requirement's coverage entries: empty list gives
`Unknown`, otherwise `inv` of the minimum rank (`best = min(ranked)`;
`sorted` before `min` does not change the minimum). -/
def overall_for (outcomes : List String) : String :=
  match outcomes.map outcome_rank with
  | [] => "Unknown"
  | r :: rs => invRank (rs.foldl Nat.min r)

/-- A coverage entry `(Lang, TestName, Outcome)`. -/
abbrev CoverageEntry := String × String × String

/-- The set `reqs` (lines 373-377): every requirement id in either map's
values; modelled as the de-duplicated concatenation. -/
def reqsUnion (csMap pyMap : List (String × List String)) : List String :=
  (csMap.flatMap (fun p => p.2) ++ pyMap.flatMap (fun p => p.2)).dedup

/-- The `coverage` defaultdict after the two join loops (lines 379-391):
per requirement id, entries from the C# map in order, then entries from
the Python map, with outcomes resolved through the two lookups. -/
def coverageOf (trxRows junitRows : List ResultRow) (csMap pyMap : List (String × List String)) :
    String → List CoverageEntry :=
  let csharp_out := dictOfRows trxRows
  let py_out := dictOfRows junitRows
  fun rid =>
    (csMap.flatMap fun p =>
      if rid ∈ p.2 then [("C#", p.1, outcome_for_csharp_method p.1 csharp_out)] else []) ++
    (pyMap.flatMap fun p =>
      if rid ∈ p.2 then [("Py", p.1, pyOutcomeLookup p.1 py_out)] else [])

/-- `build_coverage` (lines 354-406): the coverage mapping and the
`overall` dict, keyed by the requirement universe. -/
def build_coverage (trxRows junitRows : List ResultRow)
    (csMap pyMap : List (String × List String)) :
    (String → List CoverageEntry) × List (String × String) :=
  let coverage := coverageOf trxRows junitRows csMap pyMap
  let overall := (reqsUnion csMap pyMap).map fun rid =>
    (rid, if coverage rid = [] then "Unknown"
          else overall_for ((coverage rid).map fun e => e.2.2))
  (coverage, overall)

/-! ## Report writers (lines 412-485) and `main` (lines 491-533)

The writers return the list of lines joined by `"\n".join` in the Python;
file-system writes are modelled by the presence of the rendered document in
the result.  `main` has no raise or exit call, so the embedding always
returns exit code 0 together with both documents.  The salvage scan on
lines 495-507 (`rglob` plus `REQ_RE` over repository text files) is an
input: the list of requirement ids it finds. -/

/-- Python `sorted(...)` on strings. -/
def sortStrings (l : List String) : List String :=
  List.insertionSort (fun a b => pyStrLe a b = true) l

/-- `write_traceability_matrix` (lines 412-429), with the dict's key list
passed explicitly. -/
def write_traceability_matrix (keys : List String) (coverage : String → List CoverageEntry) :
    List String :=
  let header := ["| Requirement | Lang | Test | Outcome |", "|---|---|---|---|"]
  let body := (sortStrings keys).flatMap fun rid =>
    match coverage rid with
    | [] => ["| " ++ rid ++ " | – | – | – |"]
    | rows => rows.map fun e => "| " ++ rid ++ " | " ++ e.1 ++ " | " ++ e.2.1 ++ " | " ++ e.2.2 ++ " |"
  if keys = [] then header ++ body ++ ["| – | – | – | – |"] else header ++ body

/-- Python `f"\x7bx:.0f\x7d"` of the exact ratio `num/den*100`: round half to
even (the double-precision representation error of the ratio is ignored;
no claim depends on a tie). -/
def pct0f (num den : Nat) : Nat :=
  if den = 0 then 0
  else
    let a := num * 100
    let q := a / den
    let r := a % den
    if 2 * r < den then q
    else if den < 2 * r then q + 1
    else if q % 2 = 0 then q else q + 1

/-- `write_validation_report` (lines 432-485). -/
def write_validation_report (coverage : String → List CoverageEntry)
    (overall : List (String × String)) : List String :=
  let all_reqs := sortStrings (overall.map fun p => p.1)
  let status := fun r => (dictGet r overall).getD "Unknown"
  let total := all_reqs.length
  let covered := (all_reqs.filter fun r => !((coverage r).isEmpty)).length
  let passed := (all_reqs.filter fun r => status r == "Passed").length
  let failed := (all_reqs.filter fun r => status r == "Failed").length
  let skipped := (all_reqs.filter fun r => status r == "Skipped").length
  let unknown := (all_reqs.filter fun r => status r == "Unknown").length
  let head :=
    ["# Validation Report", "",
     "- **Requirements**: " ++ toString total,
     "- **Covered**: " ++ toString covered ++ " (" ++ toString (pct0f covered total) ++ "%)",
     "- **Passed**: " ++ toString passed ++ " (" ++ toString (pct0f passed total) ++ "%)",
     "- **Failed**: " ++ toString failed,
     "- **Skipped**: " ++ toString skipped,
     "- **Unknown**: " ++ toString unknown, ""]
  let failing :=
    if failed ≠ 0 then
      ["## Failing Requirements"] ++
      ((all_reqs.filter fun r => status r == "Failed").map fun r =>
        "- " ++ r ++ ": " ++
          String.intercalate "; " ((coverage r).map fun e => e.1 ++ ":" ++ e.2.1 ++ "(" ++ e.2.2 ++ ")")) ++
      [""]
    else []
  let uncovered :=
    if all_reqs.any (fun r => (coverage r).isEmpty) then
      ["## Uncovered Requirements"] ++
      ((all_reqs.filter fun r => (coverage r).isEmpty).map fun r => "- " ++ r) ++ [""]
    else []
  let rollup :=
    ["## Per-Requirement Status", "| Requirement | Overall | Tests |", "|---|---|---|"] ++
    (all_reqs.map fun r =>
      let summ :=
        if (coverage r).isEmpty then "<none>"
        else String.intercalate "<br/>" ((coverage r).map fun e => e.1 ++ ":" ++ e.2.1 ++ " — " ++ e.2.2)
      "| " ++ r ++ " | " ++ status r ++ " | " ++ summ ++ " |")
  head ++ failing ++ uncovered ++ rollup

/-- The `overall` dict as `main` leaves it after the salvage block on
lines 494-511: unchanged when non-empty, otherwise seeded from the sorted
salvage-scanned ids, all `Unknown`. -/
def final_overall (trxRows junitRows : List ResultRow)
    (csMap pyMap : List (String × List String)) (salvageIds : List String) :
    List (String × String) :=
  let ov := (build_coverage trxRows junitRows csMap pyMap).2
  if ov = [] then (dedupSort salvageIds).map (fun rid => (rid, "Unknown")) else ov

/-- The `coverage` dict's key list as `main` leaves it: the joined
requirement universe, extended by `coverage.setdefault(rid, [])` with the
salvage ids when the universe was empty. -/
def final_keys (csMap pyMap : List (String × List String)) (salvageIds : List String) :
    List String :=
  if reqsUnion csMap pyMap = [] then dedupSort salvageIds else reqsUnion csMap pyMap

/-- The observable result of `main`: both rendered documents and the
process exit status. -/
structure MainResult where
  matrix : List String
  report : List String
  exitCode : Nat
deriving Repr, DecidableEq

/-- `main` (lines 491-533): build coverage, salvage an empty universe,
write both artifacts, return success.  The Python has no raise, abort or
non-zero exit on any path. -/
def main_run (trxRows junitRows : List ResultRow)
    (csMap pyMap : List (String × List String)) (salvageIds : List String) : MainResult :=
  let coverage := (build_coverage trxRows junitRows csMap pyMap).1
  { matrix := write_traceability_matrix (final_keys csMap pyMap salvageIds) coverage,
    report := write_validation_report coverage
      (final_overall trxRows junitRows csMap pyMap salvageIds),
    exitCode := 0 }

/-! ## Theorems about the claims -/

/-- C1.  The code is at odds with the claim and with its own comment
("If any failed -> Failed, else if any skipped and none failed -> Skipped,
else Passed", line 399, and "Lower is better", line 75): line 401 takes
`min(ranked)`, the LEAST severe rank, so a requirement whose entries are
Passed and Failed aggregates to `Passed`, not `Failed`.  Evaluated here
both through `build_coverage` on a two-test requirement and directly on the
per-requirement aggregation. -/
theorem C1_min_rank_failing_input :
    (build_coverage [] [⟨"t1", "Passed"⟩, ⟨"t2", "Failed"⟩] []
        [("t1", ["REQ-001"]), ("t2", ["REQ-001"])]).2 = [("REQ-001", "Passed")] ∧
    overall_for ["Passed", "Failed"] = "Passed" ∧
    overall_for ["Passed", "Skipped"] = "Passed" ∧
    overall_for ["Unknown", "Unknown"] = "Unknown" := by
  refine ⟨?_, rfl, rfl, rfl⟩
  rfl

/-- C5.  Both result parsers return the empty row list on a failed XML
parse (`none` models `ET.parse` raising on a malformed or unreadable file);
being total Lean functions, they raise nothing on any input. -/
theorem C5_parsers_empty_on_parse_failure :
    parse_trx_file none = [] ∧ parse_junit_file none = [] :=
  ⟨rfl, rfl⟩

/-- C6 counterexample.  `parse_trx.py` finds `UnitTestResult` elements only
under the fixed TeamTest/2010 namespace: on a document whose
`UnitTestResult` carries no namespace it returns no rows at all, while
`parse_trx_file` (wildcard matching) extracts the row.  So the Format-B
parser is not namespace-agnostic for `UnitTestResult` (or `UnitTest`)
nodes, refuting the claim as stated. -/
theorem C6_fixed_namespace_counterexample :
    parse_trx (XmlNode.mk none "TestRun" [] none
      [XmlNode.mk none "UnitTestResult" [("testName", "t1"), ("outcome", "Passed")] none []]) =
      [] ∧
    parse_trx_file (some (XmlNode.mk none "TestRun" [] none
      [XmlNode.mk none "UnitTestResult" [("testName", "t1"), ("outcome", "Passed")] none []])) =
      [⟨"t1", "Passed"⟩] := by
  exact ⟨rfl, rfl⟩

/-- C2 counterexample.  With zero discoverable result artifacts (and empty
maps and salvage), `main` does not abort: it writes both artifacts and
exits 0, refuting "the run aborts with a diagnostic before writing either
output artifact". -/
theorem C2_no_abort_counterexample :
    (main_run [] [] [] [] []).exitCode = 0 ∧
    (main_run [] [] [] [] []).matrix ≠ [] ∧
    (main_run [] [] [] [] []).report ≠ [] := by
  refine ⟨rfl, ?_, ?_⟩ <;> decide

/-- C2 amended.  `main` has no abort path at all: for every input —
including zero discoverable result artifacts — it writes both artifacts
(both rendered documents are non-empty) and exits with status 0. -/
theorem C2_always_writes_both_artifacts (trxRows junitRows : List ResultRow)
    (csMap pyMap : List (String × List String)) (salvageIds : List String) :
    (main_run trxRows junitRows csMap pyMap salvageIds).exitCode = 0 ∧
    (main_run trxRows junitRows csMap pyMap salvageIds).matrix ≠ [] ∧
    (main_run trxRows junitRows csMap pyMap salvageIds).report ≠ [] := by
  refine ⟨rfl, ?_, ?_⟩
  · simp only [main_run, write_traceability_matrix]
    split <;> simp
  · simp only [main_run, write_validation_report]
    simp

/-! ### Dictionary-index lemmas (for the name-to-outcome indexes) -/

theorem dictGet_map_overwrite (k j : String) (v : String) (d : List (String × String)) :
    dictGet j (d.map fun p => if p.1 = k then (k, v) else p) =
      if j = k then (if (dictGet k d).isSome then some v else none)
      else dictGet j d := by
  induction d with
  | nil => by_cases hjk : j = k <;> simp [dictGet, hjk]
  | cons a d ih =>
    obtain ⟨a1, a2⟩ := a
    simp only [List.map_cons]
    by_cases hak : a1 = k
    · subst hak
      rw [if_pos rfl]
      by_cases hjk : j = a1
      · subst hjk
        simp [dictGet]
      · simp [dictGet, hjk, ih]
    · rw [if_neg hak]
      have hka : ¬k = a1 := fun h => hak h.symm
      by_cases hjk : j = k
      · subst hjk
        simp [dictGet, hka, ih]
      · simp [dictGet, hjk, ih]

theorem dictGet_append (j : String) (d e : List (String × String)) :
    dictGet j (d ++ e) = ((dictGet j d).orElse fun _ => dictGet j e) := by
  induction d with
  | nil => simp [dictGet]
  | cons a d ih =>
    obtain ⟨a1, a2⟩ := a
    by_cases hja : j = a1 <;> simp [dictGet, hja, ih]

theorem dictInsert_dictGet (k v j : String) (d : List (String × String)) :
    dictGet j (dictInsert k v d) = if j = k then some v else dictGet j d := by
  unfold dictInsert
  cases hget : dictGet k d with
  | some w => rw [dictGet_map_overwrite, hget]; by_cases hjk : j = k <;> simp [hjk]
  | none =>
    rw [dictGet_append]
    by_cases hjk : j = k
    · subst hjk
      rw [hget]
      simp [dictGet]
    · cases dictGet j d <;> simp [dictGet, hjk]

/-- C10.  The name-to-outcome index built from the parsed result rows (the
dict comprehensions on lines 365-366 of `generate_traceability.py`, used
for both ecosystems before any coverage entry is produced) retains, for
each test name, exactly the outcome of the last row carrying that name: its
lookup equals the first match in the reversed row list.  The concrete
conjunct shows the discarding reaching the produced coverage entries: two
rows named `t` with outcomes `Passed` then `Failed` yield the single
coverage entry outcome `Failed`. -/
theorem C10_last_record_wins :
    (∀ (rows : List ResultRow) (name : String),
      dictGet name (dictOfRows rows) =
        (rows.reverse.find? fun r => r.name == name).map fun r => r.outcome) ∧
    coverageOf [] [⟨"t", "Passed"⟩, ⟨"t", "Failed"⟩] [] [("t", ["REQ-001"])] "REQ-001" =
      [("Py", "t", "Failed")] := by
  constructor
  · intro rows name
    induction rows using List.reverseRecOn with
    | nil => simp [dictOfRows, dictGet]
    | append_singleton l r ih =>
      have hfold : dictOfRows (l ++ [r]) = dictInsert r.name r.outcome (dictOfRows l) := by
        simp [dictOfRows, List.foldl_append]
      rw [hfold, dictInsert_dictGet]
      by_cases hnr : name = r.name
      · have : (r.name == name) = true := by simp [hnr]
        simp [hnr, this]
      · have : (r.name == name) = false := by
          simpa using fun h => hnr h.symm
        simp [hnr, this, ih]
  · rfl

/-- C8.  When a Format-B result node has no usable `outcome` (and no
`result`) attribute — missing or empty, both falsy in the Python — the
parser classifies it `Failed` exactly when a nested
`Output/ErrorInfo/Message` error node is present under it, and `Unknown`
otherwise. -/
theorem C8_missing_outcome_classification (res : XmlNode)
    (h1 : res.attrD "outcome" "" = "") (h2 : res.attrD "result" "" = "") :
    trxOutcomeOf res = if hasFailureEvidence res then "Failed" else "Unknown" := by
  simp [trxOutcomeOf, pyOr, h1, h2]

/-- Witness for C8: a result node with no outcome attribute and a nested
`Output/ErrorInfo/Message` chain is classified `Failed`; one with neither
is classified `Unknown`. -/
theorem C8_missing_outcome_classification_witness :
    trxOutcomeOf (XmlNode.mk none "UnitTestResult" [] none
      [XmlNode.mk none "Output" [] none
        [XmlNode.mk none "ErrorInfo" [] none [XmlNode.mk none "Message" [] none []]]]) =
      "Failed" ∧
    trxOutcomeOf (XmlNode.mk none "UnitTestResult" [] none []) = "Unknown" := by
  constructor
  · rw [C8_missing_outcome_classification (XmlNode.mk none "UnitTestResult" [] none
      [XmlNode.mk none "Output" [] none
        [XmlNode.mk none "ErrorInfo" [] none [XmlNode.mk none "Message" [] none []]]]) rfl rfl]
    decide
  · rw [C8_missing_outcome_classification (XmlNode.mk none "UnitTestResult" [] none []) rfl rfl]
    decide

/-- C7.  In the Format-A parser a test case is classified from its direct
marker children: a `skipped` marker yields `Skipped`; failing that, a
`failure` or `error` marker yields `Failed`; with no marker the case is
`Passed`.  Every matched `testcase` descendant contributes a row whose
canonical name is its `name` attribute truncated at the first `[` or `(`
(and stripped), and `normName` is exactly that truncation. -/
theorem C7_junit_marker_classification :
    (∀ tc : XmlNode, hasDirectChild tc "skipped" = true → junitOutcomeOf tc = "Skipped") ∧
    (∀ tc : XmlNode, hasDirectChild tc "skipped" = false →
      (hasDirectChild tc "failure" || hasDirectChild tc "error") = true →
      junitOutcomeOf tc = "Failed") ∧
    (∀ tc : XmlNode, hasDirectChild tc "skipped" = false →
      hasDirectChild tc "failure" = false → hasDirectChild tc "error" = false →
      junitOutcomeOf tc = "Passed") ∧
    (∀ (root tc : XmlNode), tc ∈ root.descendants → tc.tag = "testcase" → tc.ns = none →
      (⟨pyStrip (normName (tc.attrD "name" "")), junitOutcomeOf tc⟩ : ResultRow) ∈
        parse_junit_file (some root)) ∧
    (∀ s : String, (normName s).data = s.data.takeWhile fun c => !(c == '[' || c == '(')) := by
  refine ⟨?_, ?_, ?_, ?_, fun s => rfl⟩
  · intro tc h
    simp [junitOutcomeOf, h]
  · intro tc h hf
    simp [junitOutcomeOf, h, hf]
  · intro tc h hf he
    simp [junitOutcomeOf, h, hf, he]
  · intro root tc hmem ht hn
    show _ ∈ (root.descendants.filter _).map _
    exact List.mem_map_of_mem _ (List.mem_filter.mpr ⟨hmem, by simp [ht, hn]⟩)

/-- Witness for C7: marker-based classification and name stripping on
concrete test cases — skip marker, failure marker, no marker, and a
parameterized name inside a document. -/
theorem C7_junit_marker_classification_witness :
    junitOutcomeOf (XmlNode.mk none "testcase" [] none
      [XmlNode.mk none "skipped" [] none []]) = "Skipped" ∧
    junitOutcomeOf (XmlNode.mk none "testcase" [] none
      [XmlNode.mk none "failure" [] none []]) = "Failed" ∧
    junitOutcomeOf (XmlNode.mk none "testcase" [] none []) = "Passed" ∧
    (⟨"test_foo", "Passed"⟩ : ResultRow) ∈ parse_junit_file (some (XmlNode.mk none "testsuite"
      [] none [XmlNode.mk none "testcase" [("name", "test_foo[param]")] none []])) := by
  refine ⟨?_, ?_, ?_, ?_⟩
  · exact C7_junit_marker_classification.1 _ (by decide)
  · exact C7_junit_marker_classification.2.1 _ (by decide) (by decide)
  · exact C7_junit_marker_classification.2.2.1 _ (by decide) (by decide) (by decide)
  · have hd : (XmlNode.mk none "testsuite" [] none
        [XmlNode.mk none "testcase" [("name", "test_foo[param]")] none []]).descendants =
      [XmlNode.mk none "testcase" [("name", "test_foo[param]")] none []] := rfl
    have h := C7_junit_marker_classification.2.2.2.1
      (XmlNode.mk none "testsuite" [] none
        [XmlNode.mk none "testcase" [("name", "test_foo[param]")] none []])
      (XmlNode.mk none "testcase" [("name", "test_foo[param]")] none [])
      (by rw [hd]; exact List.mem_singleton_self _) rfl rfl
    have he : (⟨"test_foo", "Passed"⟩ : ResultRow) =
        ⟨pyStrip (normName ((XmlNode.mk none "testcase" [("name", "test_foo[param]")] none
          []).attrD "name" "")),
          junitOutcomeOf (XmlNode.mk none "testcase" [("name", "test_foo[param]")] none [])⟩ := by
      decide
    rw [he]
    exact h

theorem csLookupLoop_unknown (name : String) (d : List (String × String))
    (hall : ∀ p ∈ d,
      (strEndsWith p.1 ("." ++ name) || strEndsWith p.1 ("::" ++ name) ||
        p.1 == name || pyRegexParenSearch name p.1) = false) :
    csLookupLoop name d = "Unknown" := by
  induction d with
  | nil => rfl
  | cons p d ih =>
    obtain ⟨k, v⟩ := p
    have hp := hall (k, v) (List.mem_cons_self _ _)
    simp only [Bool.or_eq_false_iff] at hp
    obtain ⟨⟨⟨h1, h2⟩, h3⟩, h4⟩ := hp
    simp only [csLookupLoop, h1, h2, h3, h4, Bool.or_self, Bool.false_or,
      Bool.or_false, if_false, Bool.false_eq_true]
    exact ih fun p hp => hall p (List.mem_cons_of_mem _ hp)

/-- C3 counterexample.  The layered resolution does not apply to the
interpreted ecosystem: with a single result row named
`Namespace.Class.test_foo` and a mapped Python test `test_foo`, the join
produces outcome `Unknown` — although the compiled-ecosystem resolver,
applied to the same index, resolves `Passed` via the suffix rule the claim
promises for "either ecosystem". -/
theorem C3_python_exact_only_counterexample :
    (build_coverage [] [⟨"Namespace.Class.test_foo", "Passed"⟩] []
      [("test_foo", ["REQ-001"])]).1 "REQ-001" = [("Py", "test_foo", "Unknown")] ∧
    outcome_for_csharp_method "test_foo"
      (dictOfRows [⟨"Namespace.Class.test_foo", "Passed"⟩]) = "Passed" := by
  exact ⟨rfl, rfl⟩

/-- C3 amended.  Outcome resolution for mapped test names:
(1) the compiled-ecosystem resolver returns an exact index hit first;
(2) a qualified result name `Namespace.Class.test_foo` resolves a mapped
test `test_foo` by the `.<name>` suffix rule;
(3) when no key of the index matches by suffix (`.<name>` or `::<name>`),
equality, or the parenthesis-tolerant regex, the result is `Unknown`, not
an error (the scan takes the first key matching any of those rules, in
index order, rather than trying all suffix matches before any regex
match);
(4) the interpreted-ecosystem joiner instead uses exact name lookup only,
with `Unknown` when absent;
(5) Format-A result names are normalized at parse time by stripping from
the first `[` or `(`. -/
theorem C3_resolution_amended :
    (∀ (name : String) (d : List (String × String)) (v : String),
      dictGet name d = some v → outcome_for_csharp_method name d = v) ∧
    (∀ o : String, outcome_for_csharp_method "test_foo"
      [("Namespace.Class.test_foo", o)] = o) ∧
    (∀ (name : String) (d : List (String × String)),
      dictGet name d = none →
      (∀ p ∈ d,
        (strEndsWith p.1 ("." ++ name) || strEndsWith p.1 ("::" ++ name) ||
          p.1 == name || pyRegexParenSearch name p.1) = false) →
      outcome_for_csharp_method name d = "Unknown") ∧
    (∀ (name : String) (rows : List ResultRow),
      dictGet name (dictOfRows rows) = none →
      pyOutcomeLookup name (dictOfRows rows) = "Unknown") ∧
    pyStrip (normName "test_foo[param]") = "test_foo" := by
  refine ⟨?_, ?_, ?_, ?_, by decide⟩
  · intro name d v h
    simp [outcome_for_csharp_method, h]
  · intro o
    have h0 : dictGet "test_foo" [("Namespace.Class.test_foo", o)] = none := by
      simp [dictGet]
    simp only [outcome_for_csharp_method, h0]
    have hc : strEndsWith "Namespace.Class.test_foo" ".test_foo" = true := by decide
    simp [csLookupLoop, hc]
  · intro name d hget hall
    simp only [outcome_for_csharp_method, hget]
    exact csLookupLoop_unknown name d hall
  · intro name rows h
    simp [pyOutcomeLookup, h]

/-- Witness for C3 amended: exact hit, qualified-suffix resolution,
no-match `Unknown` in the compiled resolver, and no-match `Unknown` in
the interpreted lookup, all at concrete inputs. -/
theorem C3_resolution_amended_witness :
    outcome_for_csharp_method "a" [("a", "Passed")] = "Passed" ∧
    outcome_for_csharp_method "test_foo" [("Namespace.Class.test_foo", "Skipped")] =
      "Skipped" ∧
    outcome_for_csharp_method "zz" [("qq", "Passed")] = "Unknown" ∧
    pyOutcomeLookup "zz" (dictOfRows [⟨"qq", "Passed"⟩]) = "Unknown" := by
  refine ⟨C3_resolution_amended.1 "a" [("a", "Passed")] "Passed" (by decide),
    C3_resolution_amended.2.1 "Skipped",
    C3_resolution_amended.2.2.1 "zz" [("qq", "Passed")] (by decide) ?_,
    C3_resolution_amended.2.2.2.1 "zz" [⟨"qq", "Passed"⟩] (by decide)⟩
  intro p hp
  fin_cases hp
  decide

/-! ### Scanner lemmas: membership through the accumulating folds -/

theorem addAll_mem_mono {x k name : String} {rs : List String} {m : String → List String}
    (h : x ∈ m k) : x ∈ addAll name rs m k := by
  unfold addAll
  by_cases hk : k = name
  · rw [if_pos hk]
    exact List.mem_append_left _ h
  · rw [if_neg hk]
    exact h

theorem addAll_mem_self {y name : String} {rs : List String} {m : String → List String}
    (h : y ∈ rs) : y ∈ addAll name rs m name := by
  unfold addAll
  rw [if_pos rfl]
  exact List.mem_append_right _ h

theorem bodyFold_mono (body : List CsMethod) (rs : List String) (acc : String → List String)
    (k : String) (x : String) (h : x ∈ acc k) :
    x ∈ (body.foldl (fun a m => if m.hasTestAttr then addAll m.name rs a else a) acc) k := by
  induction body generalizing acc with
  | nil => exact h
  | cons m0 body ih =>
    simp only [List.foldl_cons]
    apply ih
    cases hm : m0.hasTestAttr
    · simpa [hm] using h
    · simp only [hm, if_true]
      exact addAll_mem_mono h

theorem bodyFold_adds (body : List CsMethod) (rs : List String) (acc : String → List String)
    (m : CsMethod) (x : String) (hm : m ∈ body) (ht : m.hasTestAttr = true) (hx : x ∈ rs) :
    x ∈ (body.foldl (fun a m' => if m'.hasTestAttr then addAll m'.name rs a else a) acc)
      m.name := by
  induction body generalizing acc with
  | nil => cases hm
  | cons m0 body ih =>
    rcases List.mem_cons.mp hm with rfl | hmem
    · simp only [List.foldl_cons, ht, if_true]
      apply bodyFold_mono
      exact addAll_mem_self hx
    · simp only [List.foldl_cons]
      exact ih _ hmem

theorem classFold_mono (classes : List CsClass) (acc : String → List String)
    (k : String) (x : String) (h : x ∈ acc k) :
    x ∈ (classes.foldl classStep acc) k := by
  induction classes generalizing acc with
  | nil => exact h
  | cons c0 classes ih =>
    simp only [List.foldl_cons]
    apply ih
    by_cases h0 : c0.classReqs = []
    · simpa [classStep, h0] using h
    · simp only [classStep, h0, if_false]
      exact bodyFold_mono _ _ _ _ _ h

theorem classFold_adds (classes : List CsClass) (acc : String → List String)
    (c : CsClass) (m : CsMethod) (x : String) (hc : c ∈ classes) (hm : m ∈ c.body)
    (ht : m.hasTestAttr = true) (hx : x ∈ c.classReqs) :
    x ∈ (classes.foldl classStep acc) m.name := by
  induction classes generalizing acc with
  | nil => cases hc
  | cons c0 classes ih =>
    rcases List.mem_cons.mp hc with rfl | hcm
    · have hne : ¬c.classReqs = [] := by
        intro hemp
        rw [hemp] at hx
        cases hx
      simp only [List.foldl_cons]
      apply classFold_mono
      simp only [classStep, hne, if_false]
      exact bodyFold_adds _ _ _ _ _ hm ht hx
    · simp only [List.foldl_cons]
      exact ih _ hcm

theorem methodFold_mono (ms : List CsMethod) (m0 : String → List String)
    (k : String) (x : String) (h : x ∈ m0 k) : x ∈ (ms.foldl methodStep m0) k := by
  induction ms generalizing m0 with
  | nil => exact h
  | cons mm ms ih =>
    simp only [List.foldl_cons]
    apply ih
    cases hm : mm.hasTestAttr
    · simpa [methodStep, hm] using h
    · by_cases hr : mm.reqs = []
      · simpa [methodStep, hm, hr] using h
      · simp only [methodStep, hm, hr, if_true, if_false]
        exact addAll_mem_mono h

theorem methodFold_adds (ms : List CsMethod) (m0 : String → List String)
    (m : CsMethod) (y : String) (hm : m ∈ ms) (ht : m.hasTestAttr = true)
    (hy : y ∈ m.reqs) : y ∈ (ms.foldl methodStep m0) m.name := by
  induction ms generalizing m0 with
  | nil => cases hm
  | cons mm ms ih =>
    rcases List.mem_cons.mp hm with rfl | hmem
    · have hne : ¬m.reqs = [] := by
        intro hemp
        rw [hemp] at hy
        cases hy
      simp only [List.foldl_cons]
      apply methodFold_mono
      simp only [methodStep, ht, hne, if_true, if_false]
      exact addAll_mem_self hy
    · simp only [List.foldl_cons]
      exact ih _ hmem

theorem filesFold_mono (files : List CsFile) (m0 : String → List String)
    (k : String) (x : String) (h : x ∈ m0 k) : x ∈ (files.foldl csFileStep m0) k := by
  induction files generalizing m0 with
  | nil => exact h
  | cons f files ih =>
    simp only [List.foldl_cons]
    apply ih
    unfold csFileStep methodPassOn
    exact List.mem_append_left _ (methodFold_mono _ _ _ _ h)

theorem csRawMap_of_class (files : List CsFile) (f : CsFile) (c : CsClass) (m : CsMethod)
    (x : String) (hf : f ∈ files) (hc : c ∈ f.classes) (hm : m ∈ c.body)
    (ht : m.hasTestAttr = true) (hx : x ∈ c.classReqs) : x ∈ csRawMap files m.name := by
  unfold csRawMap
  generalize (fun _ : String => ([] : List String)) = m0
  induction files generalizing m0 with
  | nil => cases hf
  | cons f0 files ih =>
    rcases List.mem_cons.mp hf with rfl | hfm
    · simp only [List.foldl_cons]
      apply filesFold_mono
      unfold csFileStep classLevelOf
      exact List.mem_append_right _ (classFold_adds _ _ _ _ _ hc hm ht hx)
    · simp only [List.foldl_cons]
      exact ih hfm _

theorem csRawMap_of_method (files : List CsFile) (f : CsFile) (m : CsMethod)
    (y : String) (hf : f ∈ files) (hm : m ∈ f.methods) (ht : m.hasTestAttr = true)
    (hy : y ∈ m.reqs) : y ∈ csRawMap files m.name := by
  unfold csRawMap
  generalize (fun _ : String => ([] : List String)) = m0
  induction files generalizing m0 with
  | nil => cases hf
  | cons f0 files ih =>
    rcases List.mem_cons.mp hf with rfl | hfm
    · simp only [List.foldl_cons]
      apply filesFold_mono
      unfold csFileStep methodPassOn
      exact List.mem_append_left _ (methodFold_adds _ _ _ _ hm ht hy)
    · simp only [List.foldl_cons]
      exact ih hfm _

theorem dedupSort_mem (x : String) (l : List String) : x ∈ dedupSort l ↔ x ∈ l := by
  unfold dedupSort
  rw [(List.perm_insertionSort _ _).mem_iff]
  exact List.mem_dedup

/-- C4.  Class-level categories propagate in `map_cs_test_reqs`: a
test-attributed method match inside a class whose attribute block carries
requirement id `x` appears in the final map at the method name with `x`
(whether or not the method has own ids); and, for the same method, any own
requirement id `y` it carries as a whole-text method match is in the final
map too — class- and method-level ids are unioned, never overridden. -/
theorem C4_class_level_propagation (files : List CsFile) (f : CsFile) (c : CsClass)
    (m : CsMethod) (x : String) (hf : f ∈ files) (hc : c ∈ f.classes) (hm : m ∈ c.body)
    (ht : m.hasTestAttr = true) (hx : x ∈ c.classReqs) :
    x ∈ map_cs_test_reqs files m.name ∧
    (∀ y : String, m ∈ f.methods → y ∈ m.reqs → y ∈ map_cs_test_reqs files m.name) := by
  constructor
  · unfold map_cs_test_reqs
    exact (dedupSort_mem _ _).mpr (csRawMap_of_class files f c m x hf hc hm ht hx)
  · intro y hmm hy
    unfold map_cs_test_reqs
    exact (dedupSort_mem _ _).mpr (csRawMap_of_method files f m y hf hmm ht hy)

/-- Witness for C4: in a file with one class annotated `REQ-001` containing
test methods `TestA` (no own ids) and `TestB` (own id `REQ-002`), the map
carries `REQ-001` for `TestA` and both ids for `TestB`. -/
theorem C4_class_level_propagation_witness :
    "REQ-001" ∈ map_cs_test_reqs
      [⟨[⟨["REQ-001"], [⟨"TestA", true, []⟩, ⟨"TestB", true, ["REQ-002"]⟩]⟩],
        [⟨"TestA", true, []⟩, ⟨"TestB", true, ["REQ-002"]⟩]⟩] "TestA" ∧
    "REQ-001" ∈ map_cs_test_reqs
      [⟨[⟨["REQ-001"], [⟨"TestA", true, []⟩, ⟨"TestB", true, ["REQ-002"]⟩]⟩],
        [⟨"TestA", true, []⟩, ⟨"TestB", true, ["REQ-002"]⟩]⟩] "TestB" ∧
    "REQ-002" ∈ map_cs_test_reqs
      [⟨[⟨["REQ-001"], [⟨"TestA", true, []⟩, ⟨"TestB", true, ["REQ-002"]⟩]⟩],
        [⟨"TestA", true, []⟩, ⟨"TestB", true, ["REQ-002"]⟩]⟩] "TestB" := by
  refine ⟨?_, ?_, ?_⟩
  · exact (C4_class_level_propagation
      [⟨[⟨["REQ-001"], [⟨"TestA", true, []⟩, ⟨"TestB", true, ["REQ-002"]⟩]⟩],
        [⟨"TestA", true, []⟩, ⟨"TestB", true, ["REQ-002"]⟩]⟩]
      ⟨[⟨["REQ-001"], [⟨"TestA", true, []⟩, ⟨"TestB", true, ["REQ-002"]⟩]⟩],
        [⟨"TestA", true, []⟩, ⟨"TestB", true, ["REQ-002"]⟩]⟩
      ⟨["REQ-001"], [⟨"TestA", true, []⟩, ⟨"TestB", true, ["REQ-002"]⟩]⟩
      ⟨"TestA", true, []⟩ "REQ-001"
      (List.mem_singleton_self _) (List.mem_singleton_self _)
      (List.mem_cons_self _ _) rfl (List.mem_singleton_self _)).1
  · exact (C4_class_level_propagation
      [⟨[⟨["REQ-001"], [⟨"TestA", true, []⟩, ⟨"TestB", true, ["REQ-002"]⟩]⟩],
        [⟨"TestA", true, []⟩, ⟨"TestB", true, ["REQ-002"]⟩]⟩]
      ⟨[⟨["REQ-001"], [⟨"TestA", true, []⟩, ⟨"TestB", true, ["REQ-002"]⟩]⟩],
        [⟨"TestA", true, []⟩, ⟨"TestB", true, ["REQ-002"]⟩]⟩
      ⟨["REQ-001"], [⟨"TestA", true, []⟩, ⟨"TestB", true, ["REQ-002"]⟩]⟩
      ⟨"TestB", true, ["REQ-002"]⟩ "REQ-001"
      (List.mem_singleton_self _) (List.mem_singleton_self _)
      (by simp) rfl (List.mem_singleton_self _)).1
  · exact (C4_class_level_propagation
      [⟨[⟨["REQ-001"], [⟨"TestA", true, []⟩, ⟨"TestB", true, ["REQ-002"]⟩]⟩],
        [⟨"TestA", true, []⟩, ⟨"TestB", true, ["REQ-002"]⟩]⟩]
      ⟨[⟨["REQ-001"], [⟨"TestA", true, []⟩, ⟨"TestB", true, ["REQ-002"]⟩]⟩],
        [⟨"TestA", true, []⟩, ⟨"TestB", true, ["REQ-002"]⟩]⟩
      ⟨["REQ-001"], [⟨"TestA", true, []⟩, ⟨"TestB", true, ["REQ-002"]⟩]⟩
      ⟨"TestB", true, ["REQ-002"]⟩ "REQ-001"
      (List.mem_singleton_self _) (List.mem_singleton_self _)
      (by simp) rfl (List.mem_singleton_self _)).2 "REQ-002" (by simp)
      (List.mem_singleton_self _)

/-- C6 amended.  Namespace handling of the Format-B parsers:
(1) `parse_trx_file` matches `UnitTestResult` elements by local tag name
under any namespace whatsoever, extracting name and outcome;
(2) `parse_trx` matches category tags under a `UnitTest` by local name
only — a `TestCategoryItem` carrying its value in the `TestCategory`
attribute is collected whatever namespace it sits in;
(3) but `parse_trx` finds `UnitTest`/`UnitTestResult` nodes only in the
fixed TeamTest/2010 namespace: under any other namespace it reports no
results. -/
theorem C6_namespace_handling_amended :
    (∀ (nsv : Option String) (nm oc : String), nm ≠ "" → oc ≠ "" →
      parse_trx_file (some (XmlNode.mk none "TestRun" [] none
        [XmlNode.mk nsv "UnitTestResult" [("testName", nm), ("outcome", oc)] none []])) =
        [⟨pyStrip nm, pyStrip oc⟩]) ∧
    (∀ (catNs : Option String) (val : String), val ≠ "" →
      parse_trx (XmlNode.mk none "TestRun" [] none
        [XmlNode.mk (some teamTestNS) "UnitTest" [("id", "x")] none
          [XmlNode.mk catNs "TestCategoryItem" [("TestCategory", val)] none []],
         XmlNode.mk (some teamTestNS) "UnitTestResult"
           [("testName", "t"), ("outcome", "Passed"), ("testId", "x")] none []]) =
        [⟨some "t", some "Passed", [val]⟩]) ∧
    (∀ nsv : Option String, nsv ≠ some teamTestNS →
      parse_trx (XmlNode.mk none "TestRun" [] none
        [XmlNode.mk nsv "UnitTestResult" [("testName", "t"), ("outcome", "Passed")]
          none []]) = []) := by
  refine ⟨?_, ?_, ?_⟩
  · intro nsv nm oc hnm hoc
    simp [parse_trx_file, XmlNode.descendants, XmlNode.descList, trxNameOf, trxOutcomeOf,
      pyOr, XmlNode.attrD, XmlNode.attr, XmlNode.tag, XmlNode.attrs, dictGet, hnm, hoc]
  · intro catNs val hval
    simp [parse_trx, XmlNode.descendants, XmlNode.descList, XmlNode.iterAll, catsOf,
      catValue, dictInsertO, pyOr, XmlNode.attrD, XmlNode.attr, XmlNode.tag, XmlNode.ns,
      XmlNode.attrs, XmlNode.text, dictGet, teamTestNS, hval]
  · intro nsv hns
    simp [parse_trx, XmlNode.descendants, XmlNode.descList, XmlNode.tag, XmlNode.ns, hns]

/-- Witness for C6 amended: a foreign-namespace `UnitTestResult` is parsed
by `parse_trx_file`; a foreign-namespace category tag is collected by
`parse_trx`; a foreign-namespace `UnitTestResult` yields no `parse_trx`
rows. -/
theorem C6_namespace_handling_amended_witness :
    parse_trx_file (some (XmlNode.mk none "TestRun" [] none
      [XmlNode.mk (some "urn:other") "UnitTestResult"
        [("testName", "t1"), ("outcome", "Passed")] none []])) =
      [⟨"t1", "Passed"⟩] ∧
    parse_trx (XmlNode.mk none "TestRun" [] none
      [XmlNode.mk (some teamTestNS) "UnitTest" [("id", "x")] none
        [XmlNode.mk (some "urn:other") "TestCategoryItem" [("TestCategory", "REQ-001")]
          none []],
       XmlNode.mk (some teamTestNS) "UnitTestResult"
         [("testName", "t"), ("outcome", "Passed"), ("testId", "x")] none []]) =
      [⟨some "t", some "Passed", ["REQ-001"]⟩] ∧
    parse_trx (XmlNode.mk none "TestRun" [] none
      [XmlNode.mk (some "urn:other") "UnitTestResult"
        [("testName", "t"), ("outcome", "Passed")] none []]) = [] := by
  refine ⟨?_, ?_, ?_⟩
  · have h := C6_namespace_handling_amended.1 (some "urn:other") "t1" "Passed"
      (by decide) (by decide)
    rw [h]
    decide
  · exact C6_namespace_handling_amended.2.1 (some "urn:other") "REQ-001" (by decide)
  · exact C6_namespace_handling_amended.2.2 (some "urn:other") (by decide)

/-- C9 counterexample.  With both per-ecosystem maps empty but a salvage
scan finding `REQ-001`, the final aggregation contains `REQ-001` — yet the
union of requirement ids of the two maps is empty (and the program
consults no external catalog), so the reporting universe is not "exactly
the union of requirement identifiers appearing in the two per-ecosystem
maps". -/
theorem C9_salvage_universe_counterexample :
    final_overall [] [] [] [] ["REQ-001"] = [("REQ-001", "Unknown")] ∧
    reqsUnion [] [] = [] := by
  constructor
  · decide
  · rfl

/-- C9 amended.  The reporting universe of `build_coverage` is exactly the
union of requirement ids appearing in the two per-ecosystem maps, each
appearing exactly once (the key list of the aggregation equals the
de-duplicated union); when that union is empty, `main` instead seeds the
universe from the salvage text scan, all `Unknown`.  Any requirement whose
coverage entry list is empty has final status `Unknown` and is listed in
the report's uncovered section. -/
theorem C9_universe_amended :
    (∀ (trxRows junitRows : List ResultRow) (csMap pyMap : List (String × List String)),
      ((build_coverage trxRows junitRows csMap pyMap).2.map fun p => p.1) =
        reqsUnion csMap pyMap) ∧
    (∀ csMap pyMap : List (String × List String), (reqsUnion csMap pyMap).Nodup) ∧
    (∀ (trxRows junitRows : List ResultRow) (csMap pyMap : List (String × List String))
      (salvageIds : List String) (rid st : String),
      (rid, st) ∈ final_overall trxRows junitRows csMap pyMap salvageIds →
      coverageOf trxRows junitRows csMap pyMap rid = [] → st = "Unknown") ∧
    (∀ (trxRows junitRows : List ResultRow) (csMap pyMap : List (String × List String))
      (salvageIds : List String), reqsUnion csMap pyMap ≠ [] →
      final_overall trxRows junitRows csMap pyMap salvageIds =
        (build_coverage trxRows junitRows csMap pyMap).2) ∧
    (∀ (trxRows junitRows : List ResultRow) (csMap pyMap : List (String × List String))
      (salvageIds : List String), reqsUnion csMap pyMap = [] →
      final_overall trxRows junitRows csMap pyMap salvageIds =
        ((dedupSort salvageIds).map fun rid => (rid, "Unknown"))) ∧
    (∀ (coverage : String → List CoverageEntry) (overall : List (String × String))
      (r : String), (r ∈ overall.map fun p => p.1) → coverage r = [] →
      ("- " ++ r) ∈ write_validation_report coverage overall) := by
  refine ⟨?_, ?_, ?_, ?_, ?_, ?_⟩
  · intro trxRows junitRows csMap pyMap
    simp [build_coverage, List.map_map, Function.comp_def]
  · intro csMap pyMap
    exact List.nodup_dedup _
  · intro trxRows junitRows csMap pyMap salvageIds rid st hmem hcov
    unfold final_overall at hmem
    by_cases hov : (build_coverage trxRows junitRows csMap pyMap).2 = []
    · rw [if_pos hov] at hmem
      obtain ⟨rid', _, heq⟩ := List.mem_map.mp hmem
      have h2 := congrArg Prod.snd heq
      exact h2.symm
    · rw [if_neg hov] at hmem
      simp only [build_coverage] at hmem
      obtain ⟨rid', hin, heq⟩ := List.mem_map.mp hmem
      have h1 := congrArg Prod.fst heq
      have h2 := congrArg Prod.snd heq
      simp only at h1 h2
      subst h1
      rw [if_pos hcov] at h2
      exact h2.symm
  · intro trxRows junitRows csMap pyMap salvageIds hne
    unfold final_overall
    rw [if_neg ?_]
    intro h
    apply hne
    have := congrArg (List.map fun p : String × String => p.1) h
    simpa [build_coverage, List.map_map, Function.comp_def] using this
  · intro trxRows junitRows csMap pyMap salvageIds he
    unfold final_overall
    rw [if_pos ?_]
    show ((reqsUnion csMap pyMap).map _) = []
    rw [he]
    rfl
  · intro coverage overall r hr hc
    have hmem : r ∈ sortStrings (overall.map fun p => p.1) := by
      unfold sortStrings
      exact (List.perm_insertionSort _ _).mem_iff.mpr hr
    have hany : ((sortStrings (overall.map fun p => p.1)).any
        fun q => (coverage q).isEmpty) = true := by
      rw [List.any_eq_true]
      exact ⟨r, hmem, by simp [hc]⟩
    have hfil : r ∈ (sortStrings (overall.map fun p => p.1)).filter
        fun q => (coverage q).isEmpty := List.mem_filter.mpr ⟨hmem, by simp [hc]⟩
    have hin : ("- " ++ r) ∈ ((sortStrings (overall.map fun p => p.1)).filter
        fun q => (coverage q).isEmpty).map (fun q => "- " ++ q) :=
      List.mem_map.mpr ⟨r, hfil, rfl⟩
    simp only [write_validation_report, hany, if_true, List.mem_append]
    tauto

/-- Witness for C9 amended: the empty-coverage conjuncts discharged at
concrete inputs — a salvage-seeded requirement has status `Unknown`, the
salvage branch and the non-salvage branch of `main`, and the uncovered
section listing a concrete uncovered requirement. -/
theorem C9_universe_amended_witness :
    "Unknown" = "Unknown" ∧
    final_overall [] [] [("t", ["REQ-001"])] [] ["REQ-009"] =
      (build_coverage [] [] [("t", ["REQ-001"])] []).2 ∧
    final_overall [] [] [] [] ["REQ-009"] = [("REQ-009", "Unknown")] ∧
    ("- REQ-001" : String) ∈ write_validation_report (fun _ => [])
      [("REQ-001", "Unknown")] := by
  refine ⟨?_, ?_, ?_, ?_⟩
  · exact C9_universe_amended.2.2.1 [] [] [] [] ["REQ-009"] "REQ-009" "Unknown"
      (by decide) rfl
  · exact C9_universe_amended.2.2.2.1 [] [] [("t", ["REQ-001"])] [] ["REQ-009"]
      (by decide)
  · have h := C9_universe_amended.2.2.2.2.1 [] [] [] [] ["REQ-009"] rfl
    rw [h]
    decide
  · exact C9_universe_amended.2.2.2.2.2 (fun _ => []) [("REQ-001", "Unknown")]
      "REQ-001" (by simp) rfl

end Traceability
